import Mathlib

/-!
Verification of the quantum-circuit core (`quantumCircuit.py`) and the
logic-network front end (`logicNetwork.py`) of the qc-extract repository.

The Python classes are embedded shallowly: a `QuantumCircuit` instance is a
`Circuit` value; every mutating method becomes a function returning the updated
circuit; methods that can raise (`assert` failure, list `IndexError`) return
the updated circuit paired with an optional error, the error naming the
condition raised.  Because every raising check in the source runs before any
gate is appended, a call that errors returns the circuit unchanged.
-/

/-- The seven gate-record kinds built by `QuantumCircuit`:
dicts `{"name": "X"|"HAD"|"S"|"T"|"Tdg", "target": t}`,
`{"name": "CNOT", "ctrl": c, "target": t}` and
`{"name": "Tof", "ctrl1": c1, "ctrl2": c2, "target": t}`. -/
inductive Gate where
  | X (target : Nat)
  | HAD (target : Nat)
  | S (target : Nat)
  | T (target : Nat)
  | Tdg (target : Nat)
  | CNOT (ctrl target : Nat)
  | Tof (ctrl1 ctrl2 target : Nat)
deriving DecidableEq, Repr

/-- Error conditions a `QuantumCircuit` builder call can raise:
the two `assert` messages in the source and Python's `IndexError`
from indexing a too-short polarity list. -/
inductive QCError where
  | duplicateQubit
  | unsupportedArity
  | indexError
deriving DecidableEq, Repr

/-- `QuantumCircuit.__init__`: `n_qubits = 0`, `gates = []`. -/
structure Circuit where
  n_qubits : Nat
  gates : List Gate
deriving DecidableEq, Repr

def Circuit.empty : Circuit := ⟨0, []⟩

/-- `is_unique(lst)`: `len(lst) == len(set(lst))`. -/
def is_unique (lst : List Nat) : Bool :=
  lst.dedup.length == lst.length

/-- `request_qubit`: increments the counter and returns the old count. -/
def request_qubit (qc : Circuit) : Circuit × Nat :=
  ({ qc with n_qubits := qc.n_qubits + 1 }, qc.n_qubits)

/-- `request_qubits(n)`: `n` repeated single requests, collecting the indices. -/
def request_qubits (qc : Circuit) : Nat → Circuit × List Nat
  | 0 => (qc, [])
  | n + 1 =>
    let p := request_qubit qc
    let r := request_qubits p.1 n
    (r.1, p.2 :: r.2)

def add_x (qc : Circuit) (target : Nat) : Circuit :=
  { qc with gates := qc.gates ++ [Gate.X target] }

def add_h (qc : Circuit) (target : Nat) : Circuit :=
  { qc with gates := qc.gates ++ [Gate.HAD target] }

def add_s (qc : Circuit) (target : Nat) : Circuit :=
  { qc with gates := qc.gates ++ [Gate.S target] }

def add_t (qc : Circuit) (target : Nat) : Circuit :=
  { qc with gates := qc.gates ++ [Gate.T target] }

def add_tdg (qc : Circuit) (target : Nat) : Circuit :=
  { qc with gates := qc.gates ++ [Gate.Tdg target] }

/-- `add_cnot(ctrl, target, p=False)`: when `p`, an `X(ctrl)` immediately
before and after the elementary `CNOT`. -/
def add_cnot (qc : Circuit) (ctrl target : Nat) (p : Bool) : Circuit :=
  let qc1 := if p then add_x qc ctrl else qc
  let qc2 := { qc1 with gates := qc1.gates ++ [Gate.CNOT ctrl target] }
  if p then add_x qc2 ctrl else qc2

/-- `add_cz(ctrl, target)`: `H(target); CNOT; H(target)`. -/
def add_cz (qc : Circuit) (ctrl target : Nat) : Circuit :=
  let qc1 := add_h qc target
  let qc2 := { qc1 with gates := qc1.gates ++ [Gate.CNOT ctrl target] }
  add_h qc2 target

/-- `add_z(target)`: `H(target); X(target); H(target)`. -/
def add_z (qc : Circuit) (target : Nat) : Circuit :=
  let qc1 := add_h qc target
  let qc2 := { qc1 with gates := qc1.gates ++ [Gate.X target] }
  add_h qc2 target

/-- `add_toffoli(c1, c2, target, p1=False, p2=False, clean=False)`.  The
`assert is_unique([c1, c2, target])` runs first; on failure nothing has been
appended, so the circuit comes back unchanged with the duplicate-qubit error. -/
def add_toffoli (qc : Circuit) (c1 c2 target : Nat) (p1 p2 clean : Bool) :
    Circuit × Option QCError :=
  if is_unique [c1, c2, target] then
    let qcA := if p1 then add_x qc c1 else qc
    let qcB := if p2 then add_x qcA c2 else qcA
    let qcC :=
      if clean then
        let q1 := add_h qcB target
        let q2 := add_t q1 target
        let q3 := add_cnot q2 c1 target false
        let q4 := add_cnot q3 c2 target false
        let q5 := add_cnot q4 target c2 false
        let q6 := add_cnot q5 target c1 false
        let q7 := add_tdg q6 c1
        let q8 := add_tdg q7 c2
        let q9 := add_t q8 target
        let q10 := add_cnot q9 target c1 false
        let q11 := add_cnot q10 target c2 false
        let q12 := add_h q11 target
        add_s q12 c1
      else { qcB with gates := qcB.gates ++ [Gate.Tof c1 c2 target] }
    let qcD := if p1 then add_x qcC c1 else qcC
    let qcE := if p2 then add_x qcD c2 else qcD
    (qcE, none)
  else (qc, some QCError.duplicateQubit)

/-- `add_mcx(cs, target, ps=[], clean=False)`: `assert len(cs) <= 2` first,
then for one control `add_cnot(cs[0], target, ps[0])`, for two controls
`add_toffoli(cs[0], cs[1], target, ps[0], ps[1], clean)`.  Indexing `ps`
beyond its length raises `IndexError` before the delegated call appends
anything. -/
def add_mcx (qc : Circuit) (cs : List Nat) (target : Nat) (ps : List Bool)
    (clean : Bool) : Circuit × Option QCError :=
  if cs.length ≤ 2 then
    match cs, ps with
    | [c], p :: _ => (add_cnot qc c target p, none)
    | [_], [] => (qc, some QCError.indexError)
    | [c1, c2], p1 :: p2 :: _ => add_toffoli qc c1 c2 target p1 p2 clean
    | [_, _], _ => (qc, some QCError.indexError)
    | _, _ => (qc, none)
  else (qc, some QCError.unsupportedArity)

/-- `deps_of(gate)`: the set of qubit indices the gate touches. -/
def deps_of : Gate → Finset Nat
  | Gate.CNOT c t => insert c {t}
  | Gate.Tof c1 c2 t => insert c1 (insert c2 {t})
  | Gate.X t => {t}
  | Gate.HAD t => {t}
  | Gate.S t => {t}
  | Gate.T t => {t}
  | Gate.Tdg t => {t}

/-- One emitted assembly line per gate record, `to_qasm`'s per-kind
formatting: `ccx` for `Tof`, `cx` for `CNOT`, and `x`/`h`/`s`/`t`/`tdg`
for the single-qubit kinds.  The `Gate` variant covers exactly the seven
recognized kinds, so the `NotImplementedError` branch is unreachable. -/
def gate_line : Gate → String
  | Gate.Tof c1 c2 t => s!"ccx q[{c1}], q[{c2}], q[{t}];"
  | Gate.CNOT c t => s!"cx q[{c}], q[{t}];"
  | Gate.X t => s!"x q[{t}];"
  | Gate.HAD t => s!"h q[{t}];"
  | Gate.S t => s!"s q[{t}];"
  | Gate.T t => s!"t q[{t}];"
  | Gate.Tdg t => s!"tdg q[{t}];"

/-- `to_qasm` without the optimizer, as the list of emitted lines: the 3-line
header then one line per gate record in sequence order. -/
def to_qasm_lines (qc : Circuit) : List String :=
  let n := qc.n_qubits
  ["OPENQASM 2.0;", "include \"qelib1.inc\";", s!"qreg q[{n}];"]
    ++ qc.gates.map gate_line

/-- `to_qasm` without the optimizer, as the full text: each line followed by
a newline, exactly as the source concatenates them. -/
def to_qasm (qc : Circuit) : String :=
  String.join ((to_qasm_lines qc).map fun l => l ++ "\n")

/-- The shape of an externally parsed instruction that `from_qasm` replays:
the gate names and fields it reads off the collaborator's gate objects
(`Tof`, `CNOT`, `CZ`, `Z`, `X`, `HAD`, `S`, `T`, `Tdg`). -/
inductive ParsedGate where
  | Tof (ctrl1 ctrl2 target : Nat)
  | CNOT (control target : Nat)
  | CZ (control target : Nat)
  | Z (target : Nat)
  | X (target : Nat)
  | HAD (target : Nat)
  | S (target : Nat)
  | T (target : Nat)
  | Tdg (target : Nat)
deriving DecidableEq, Repr

/-- Modelled from the spec: the external OPENQASM parser (the pyzx
collaborator, not part of this repository) that `from_qasm` delegates to.
Per §4.6/§6, applied to text produced by `to_qasm` it recovers the register
size from the `qreg` declaration and one parsed instruction per emitted gate
line, in order, with the same kind and qubit indices. -/
def parse_gate_of_exported : Gate → ParsedGate
  | Gate.Tof c1 c2 t => ParsedGate.Tof c1 c2 t
  | Gate.CNOT c t => ParsedGate.CNOT c t
  | Gate.X t => ParsedGate.X t
  | Gate.HAD t => ParsedGate.HAD t
  | Gate.S t => ParsedGate.S t
  | Gate.T t => ParsedGate.T t
  | Gate.Tdg t => ParsedGate.Tdg t

/-- Modelled from the spec: the collaborator's result on `to_qasm qc` —
the register size and the parsed instruction list (§4.6 import contract). -/
def parse_exported (qc : Circuit) : Nat × List ParsedGate :=
  (qc.n_qubits, qc.gates.map parse_gate_of_exported)

/-- One loop iteration of `from_qasm`: dispatch a parsed instruction to the
corresponding builder call (defaults: positive polarities, `clean=False`). -/
def replay_gate (qc : Circuit) : ParsedGate → Circuit × Option QCError
  | ParsedGate.Tof c1 c2 t => add_toffoli qc c1 c2 t false false false
  | ParsedGate.CNOT c t => (add_cnot qc c t false, none)
  | ParsedGate.CZ c t => (add_cz qc c t, none)
  | ParsedGate.Z t => (add_z qc t, none)
  | ParsedGate.X t => (add_x qc t, none)
  | ParsedGate.HAD t => (add_h qc t, none)
  | ParsedGate.S t => (add_s qc t, none)
  | ParsedGate.T t => (add_t qc t, none)
  | ParsedGate.Tdg t => (add_tdg qc t, none)

/-- The replay loop of `from_qasm`: builder calls in instruction order; a
raised error stops the loop with the state accumulated so far. -/
def replay_gates (qc : Circuit) : List ParsedGate → Circuit × Option QCError
  | [] => (qc, none)
  | g :: gs =>
    let r := replay_gate qc g
    match r.2 with
    | none => replay_gates r.1 gs
    | some e => (r.1, some e)

/-- `from_qasm` after external parsing: a fresh circuit, `request_qubits`
for the register size, then the replay loop. -/
def from_parsed (qubits : Nat) (gs : List ParsedGate) :
    Circuit × Option QCError :=
  replay_gates (request_qubits Circuit.empty qubits).1 gs

/-- `QuantumCircuit.from_qasm(qc.to_qasm())` with the parsing step supplied
by the spec-modelled collaborator. -/
def from_qasm_of_exported (qc : Circuit) : Circuit × Option QCError :=
  from_parsed (parse_exported qc).1 (parse_exported qc).2

/-- The §3 data-model invariant on a gate record: a `Toffoli` carries
pairwise-distinct qubits (other kinds are unconstrained). -/
def tof_distinct : Gate → Bool
  | Gate.Tof a b c => is_unique [a, b, c]
  | _ => true

/-- `num_t`: number of gate records whose name is `T` or `Tdg`. -/
def num_t (qc : Circuit) : Nat :=
  (qc.gates.filter fun g =>
    match g with
    | Gate.T _ => true
    | Gate.Tdg _ => true
    | _ => false).length

/-- `num_gates`: `len(self.gates)`. -/
def num_gates (qc : Circuit) : Nat :=
  qc.gates.length

/-!
Embedding of `logicNetwork.py`.  The Python string operations used by
`LogicGate.from_assignment` and `_get_list` — `split` on a one-character
separator, `strip`, `rstrip`, substring `replace`, and the `in` containment
test — are modelled as structural recursions over the character list of the
string, following Python's semantics for each.
-/

/-- `s.split(sep)` for a one-character separator: Python splits at every
occurrence and keeps empty pieces, and `"".split(sep) == [""]`. -/
def splitChar (sep : Char) (cs : List Char) : List (List Char) :=
  cs.foldr
    (fun c r =>
      match r with
      | [] => [[c]]
      | h :: t => if c == sep then [] :: h :: t else (c :: h) :: t)
    [[]]

/-- Python `lstrip`: drop leading characters satisfying `p`. -/
def lstripBy (p : Char → Bool) : List Char → List Char
  | [] => []
  | c :: cs => if p c then lstripBy p cs else c :: cs

/-- Python `rstrip`: drop trailing characters satisfying `p`. -/
def rstripBy (p : Char → Bool) (cs : List Char) : List Char :=
  (lstripBy p cs.reverse).reverse

/-- Python `strip()`: drop whitespace at both ends. -/
def stripSpaces (cs : List Char) : List Char :=
  lstripBy Char.isWhitespace (rstripBy Char.isWhitespace cs)

/-- `x in s` for a one-character needle. -/
def containsChar (x : Char) (cs : List Char) : Bool :=
  cs.contains x

/-- `s.replace(old, "")` for the one-character pattern `~`. -/
def removeChar (x : Char) (cs : List Char) : List Char :=
  cs.filter fun c => c != x

/-- Does `pat` begin the list? -/
def beginsWith : List Char → List Char → Bool
  | [], _ => true
  | _ :: _, [] => false
  | p :: ps, c :: cs => p == c && beginsWith ps cs

/-- Fuel-driven body of `s.replace(pat, rep)`: at each position, a match of
`pat` is replaced and scanning resumes after it, exactly Python's
left-to-right non-overlapping replacement.  The fuel starts at the list
length, enough since nonempty matches consume at least one character. -/
def replaceSubAux (pat rep : List Char) : Nat → List Char → List Char
  | _, [] => []
  | 0, cs => cs
  | fuel + 1, c :: cs =>
    if beginsWith pat (c :: cs) then
      rep ++ replaceSubAux pat rep fuel ((c :: cs).drop pat.length)
    else c :: replaceSubAux pat rep fuel cs

/-- `s.replace(pat, rep)` for a nonempty pattern. -/
def replaceSub (pat rep cs : List Char) : List Char :=
  if pat.isEmpty then cs else replaceSubAux pat rep cs.length cs

/-- `LogicGate` record content: kind, input wires, output wire, and the
auxiliary data dict's key/value pairs in insertion order. -/
structure LogicGate where
  gate_type : String
  inputs : List String
  output : String
  data : List (String × Bool)
deriving DecidableEq, Repr

/-- The `op`-found branch of `from_assignment`: split the right-hand side on
the operator into exactly two operands (`ValueError` otherwise, modelled as
`none`), read each operand's `~` polarity, strip the `~`, and build either
the De Morgan AND (for `|` with `map_or`) or the native gate. -/
def make_op_gate (op : Char) (assign_from assign_to : List Char)
    (map_or : Bool) : Option LogicGate :=
  match (splitChar op assign_from).map stripSpaces with
  | [s1, s2] =>
    let p1 := containsChar '~' s1
    let p2 := containsChar '~' s2
    let s1c := String.mk (removeChar '~' s1)
    let s2c := String.mk (removeChar '~' s2)
    if map_or && op == '|' then
      some ⟨"&", [s1c, s2c], String.mk assign_to,
        [("p1", !p1), ("p2", !p2), ("p3", true)]⟩
    else
      some ⟨String.mk [op], [s1c, s2c], String.mk assign_to,
        [("p1", p1), ("p2", p2), ("p3", false)]⟩
  | _ => none

/-- `LogicGate.from_assignment(assign_str, map_or=True)`: split on `=` into
destination and expression (both stripped), try the operators `&`, `|`, `^`
in that order, else a plain copy gate `=` carrying the default (empty)
data dict. -/
def from_assignment (assign_str : String) (map_or : Bool) :
    Option LogicGate :=
  match (splitChar '=' assign_str.data).map stripSpaces with
  | [assign_to, assign_from] =>
    if containsChar '&' assign_from then
      make_op_gate '&' assign_from assign_to map_or
    else if containsChar '|' assign_from then
      make_op_gate '|' assign_from assign_to map_or
    else if containsChar '^' assign_from then
      make_op_gate '^' assign_from assign_to map_or
    else
      some ⟨"=", [String.mk (removeChar '~' assign_from)],
        String.mk assign_to, []⟩
  | _ => none

/-- `_get_list(lst_str, s)`: delete the keyword, strip, split on commas,
strip each piece and drop empties. -/
def _get_list (lst_str s : List Char) : List (List Char) :=
  let t := stripSpaces (replaceSub s [] lst_str)
  ((splitChar ',' t).map stripSpaces).filter fun x => x ≠ []

/-- One `assign` line the way `from_verilog` handles it: strip the trailing
semicolons (`line.rstrip(";")`), remove the `assign` keyword via `_get_list`,
and hand the first entry to `from_assignment`. -/
def parse_assign_line (line : String) (map_or : Bool) : Option LogicGate :=
  match _get_list (rstripBy (fun c => c == ';') line.data) "assign".data with
  | a :: _ => from_assignment (String.mk a) map_or
  | [] => none

/-!
Heap model for `LogicGate.__init__(self, gate_type, inputs, output, data = {})`.
Python attributes store object references, and a default argument value is
constructed once, when the function is defined, then reused by every call
that omits the argument.  The model heap is an address-indexed list of dict
objects; address 0 holds the one default dict built at definition time.
-/

/-- A Python dict object: key/value pairs in insertion order. -/
structure PyDict where
  entries : List (String × Bool)
deriving DecidableEq, Repr

/-- The address of the default `data` object, allocated once when
`__init__` is defined. -/
def defaultDataAddr : Nat := 0

/-- The heap as of function definition: only the default dict, empty. -/
def initialHeap : List PyDict := [PyDict.mk []]

/-- A constructed `LogicGate` object: plain fields plus the reference its
`data` attribute stores. -/
structure LogicGateObj where
  gate_type : String
  inputs : List String
  output : String
  dataRef : Nat
deriving DecidableEq, Repr

/-- `LogicGate(gate_type, inputs, output)` or `LogicGate(..., data=d)` in the
heap model: an explicit `data` argument is a freshly allocated dict; omitting
it stores a reference to the shared default object at address 0. -/
def mkLogicGate (heap : List PyDict) (t : String) (ins : List String)
    (out : String) (data : Option (List (String × Bool))) :
    List PyDict × LogicGateObj :=
  match data with
  | none => (heap, LogicGateObj.mk t ins out defaultDataAddr)
  | some d => (heap ++ [PyDict.mk d], LogicGateObj.mk t ins out heap.length)

/-- Dereference an address. -/
def heapDict (heap : List PyDict) (addr : Nat) : PyDict :=
  heap.getD addr (PyDict.mk [])

/-- `obj.data[k] = v`: mutate the dict object the record references. -/
def dictInsert (heap : List PyDict) (addr : Nat) (k : String) (v : Bool) :
    List PyDict :=
  heap.set addr (PyDict.mk ((heapDict heap addr).entries ++ [(k, v)]))

/-- `k in obj.data`. -/
def dictMem (heap : List PyDict) (addr : Nat) (k : String) : Bool :=
  ((heapDict heap addr).entries.map Prod.fst).contains k

theorem is_unique_iff_nodup (lst : List Nat) :
    is_unique lst = true ↔ lst.Nodup := by
  unfold is_unique
  rw [beq_iff_eq]
  constructor
  · intro h
    have hsub := List.dedup_sublist lst
    have heq := hsub.eq_of_length h
    rw [← heq]
    exact List.nodup_dedup lst
  · intro h
    rw [List.dedup_eq_self.mpr h]

theorem is_unique_triple (a b c : Nat) (h1 : a ≠ b) (h2 : a ≠ c) (h3 : b ≠ c) :
    is_unique [a, b, c] = true := by
  rw [is_unique_iff_nodup]
  simp [List.nodup_cons, h1, h2, h3]

theorem is_unique_triple_false (a b c : Nat) (h : a = b ∨ a = c ∨ b = c) :
    is_unique [a, b, c] = false := by
  have hnd : ¬ ([a, b, c].Nodup) := by
    intro hn
    simp only [List.nodup_cons, List.mem_cons, List.mem_singleton,
      List.not_mem_nil] at hn
    rcases h with h | h | h <;> simp [h] at hn
  cases hb : is_unique [a, b, c] with
  | false => rfl
  | true => exact absurd ((is_unique_iff_nodup _).mp hb) hnd

/-- C1: for pairwise-distinct `c1, c2, target`,
`add_toffoli(c1, c2, target, p1=False, p2=False, clean=True)` appends exactly
the 13 records `H(t); T(t); CNOT(c1,t); CNOT(c2,t); CNOT(t,c2); CNOT(t,c1);
Tdg(c1); Tdg(c2); T(t); CNOT(t,c1); CNOT(t,c2); H(t); S(c1)` in that order,
and the circuit's T-gate count (`T` plus `Tdg` records) grows by exactly 4. -/
theorem C1_toffoli_clean_sequence (qc : Circuit) (c1 c2 t : Nat)
    (h1 : c1 ≠ c2) (h2 : c1 ≠ t) (h3 : c2 ≠ t) :
    add_toffoli qc c1 c2 t false false true =
      ({ qc with gates := qc.gates ++
        [Gate.HAD t, Gate.T t, Gate.CNOT c1 t, Gate.CNOT c2 t,
         Gate.CNOT t c2, Gate.CNOT t c1, Gate.Tdg c1, Gate.Tdg c2,
         Gate.T t, Gate.CNOT t c1, Gate.CNOT t c2, Gate.HAD t,
         Gate.S c1] }, none) ∧
    num_t (add_toffoli qc c1 c2 t false false true).1 = num_t qc + 4 := by
  have hu := is_unique_triple c1 c2 t h1 h2 h3
  have heq : add_toffoli qc c1 c2 t false false true =
      ({ qc with gates := qc.gates ++
        [Gate.HAD t, Gate.T t, Gate.CNOT c1 t, Gate.CNOT c2 t,
         Gate.CNOT t c2, Gate.CNOT t c1, Gate.Tdg c1, Gate.Tdg c2,
         Gate.T t, Gate.CNOT t c1, Gate.CNOT t c2, Gate.HAD t,
         Gate.S c1] }, none) := by
    simp [add_toffoli, hu, add_h, add_t, add_cnot, add_tdg, add_s, add_x]
  refine ⟨heq, ?_⟩
  rw [heq]
  simp [num_t, List.filter_append]

/-- Witness for C1 at `c1 = 0`, `c2 = 1`, `target = 2` on the empty circuit. -/
theorem C1_toffoli_clean_sequence_witness :
    add_toffoli Circuit.empty 0 1 2 false false true =
      ({ Circuit.empty with gates :=
        [Gate.HAD 2, Gate.T 2, Gate.CNOT 0 2, Gate.CNOT 1 2,
         Gate.CNOT 2 1, Gate.CNOT 2 0, Gate.Tdg 0, Gate.Tdg 1,
         Gate.T 2, Gate.CNOT 2 0, Gate.CNOT 2 1, Gate.HAD 2,
         Gate.S 0] }, none) ∧
    num_t (add_toffoli Circuit.empty 0 1 2 false false true).1 =
      num_t Circuit.empty + 4 :=
  C1_toffoli_clean_sequence Circuit.empty 0 1 2
    (by decide) (by decide) (by decide)

/-- C3: whenever at least two of `c1, c2, target` coincide, `add_toffoli`
fails with the duplicate-qubit condition for every polarity/clean setting,
and the circuit comes back unchanged — the check precedes every append. -/
theorem C3_toffoli_duplicate_fails (qc : Circuit) (c1 c2 t : Nat)
    (p1 p2 clean : Bool) (h : c1 = c2 ∨ c1 = t ∨ c2 = t) :
    add_toffoli qc c1 c2 t p1 p2 clean = (qc, some QCError.duplicateQubit) := by
  simp [add_toffoli, is_unique_triple_false c1 c2 t h]

/-- Witness for C3 at `c1 = c2 = 0`, `target = 1` on the empty circuit. -/
theorem C3_toffoli_duplicate_fails_witness :
    add_toffoli Circuit.empty 0 0 1 true false true =
      (Circuit.empty, some QCError.duplicateQubit) :=
  C3_toffoli_duplicate_fails Circuit.empty 0 0 1 true false true (Or.inl rfl)

/-- C4: negative controls are realized by X-conjugation:
`add_cnot(c, t, p=True)` appends exactly `[X(c), CNOT(c,t), X(c)]` (3 gates),
`add_cnot(c, t, p=False)` appends exactly one `CNOT(c,t)`, and
`add_toffoli(c1, c2, u, p1=True, p2=False, clean=False)` (distinct qubits)
appends exactly `[X(c1), Toffoli(c1,c2,u), X(c1)]` in that order. -/
theorem C4_polarity_x_conjugation (qc : Circuit) (c t c1 c2 u : Nat)
    (h1 : c1 ≠ c2) (h2 : c1 ≠ u) (h3 : c2 ≠ u) :
    add_cnot qc c t true =
      { qc with gates := qc.gates ++ [Gate.X c, Gate.CNOT c t, Gate.X c] } ∧
    add_cnot qc c t false =
      { qc with gates := qc.gates ++ [Gate.CNOT c t] } ∧
    add_toffoli qc c1 c2 u true false false =
      ({ qc with gates :=
        qc.gates ++ [Gate.X c1, Gate.Tof c1 c2 u, Gate.X c1] }, none) := by
  refine ⟨?_, ?_, ?_⟩
  · simp [add_cnot, add_x]
  · simp [add_cnot]
  · simp [add_toffoli, is_unique_triple c1 c2 u h1 h2 h3, add_x]

/-- Witness for C4 at `c = 0`, `t = 1` and Toffoli qubits `0, 1, 2`. -/
theorem C4_polarity_x_conjugation_witness :
    add_cnot Circuit.empty 0 1 true =
      { Circuit.empty with gates :=
        [Gate.X 0, Gate.CNOT 0 1, Gate.X 0] } ∧
    add_cnot Circuit.empty 0 1 false =
      { Circuit.empty with gates := [Gate.CNOT 0 1] } ∧
    add_toffoli Circuit.empty 0 1 2 true false false =
      ({ Circuit.empty with gates :=
        [Gate.X 0, Gate.Tof 0 1 2, Gate.X 0] }, none) :=
  C4_polarity_x_conjugation Circuit.empty 0 1 0 1 2
    (by decide) (by decide) (by decide)

/-- C6: evaluation of the code at the claim's input.  `add_mcx([c], target)`
with the default polarity list `ps = []` evaluates `ps[0]`, which raises
`IndexError` before the delegated `add_cnot` runs: the call fails and appends
nothing, contradicting the claim that it appends one `CNOT(c, target)` and
does not fail. -/
theorem C6_mcx_single_control_default_fails (qc : Circuit) (c target : Nat) :
    add_mcx qc [c] target [] false = (qc, some QCError.indexError) := by
  simp [add_mcx]

/-- C7: `add_mcx` with more than two controls fails with the
unsupported-arity condition for every target, polarity list and clean
setting, and the circuit comes back unchanged — the arity assert runs
before anything is appended. -/
theorem C7_mcx_arity_fails (qc : Circuit) (cs : List Nat) (target : Nat)
    (ps : List Bool) (clean : Bool) (h : 2 < cs.length) :
    add_mcx qc cs target ps clean = (qc, some QCError.unsupportedArity) := by
  simp [add_mcx, Nat.not_le.mpr h]

/-- Witness for C7 with three controls `[0, 1, 2]`. -/
theorem C7_mcx_arity_fails_witness :
    add_mcx Circuit.empty [0, 1, 2] 3 [] false =
      (Circuit.empty, some QCError.unsupportedArity) :=
  C7_mcx_arity_fails Circuit.empty [0, 1, 2] 3 [] false (by decide)

/-- C8: `deps_of` is a function of the gate record alone (its type takes only
the record, so it cannot depend on sequence position); it returns
`{control, target}` for `CNOT`, the 3-element set `{c1, c2, u}` for a
`Toffoli` with pairwise-distinct qubits, and the 1-element set `{target}`
for each single-qubit kind. -/
theorem C8_deps_of_sets (c t c1 c2 u x : Nat)
    (h1 : c1 ≠ c2) (h2 : c1 ≠ u) (h3 : c2 ≠ u) :
    deps_of (Gate.CNOT c t) = {c, t} ∧
    deps_of (Gate.Tof c1 c2 u) = {c1, c2, u} ∧
    (deps_of (Gate.Tof c1 c2 u)).card = 3 ∧
    deps_of (Gate.X x) = {x} ∧ (deps_of (Gate.X x)).card = 1 ∧
    deps_of (Gate.HAD x) = {x} ∧ (deps_of (Gate.HAD x)).card = 1 ∧
    deps_of (Gate.S x) = {x} ∧ (deps_of (Gate.S x)).card = 1 ∧
    deps_of (Gate.T x) = {x} ∧ (deps_of (Gate.T x)).card = 1 ∧
    deps_of (Gate.Tdg x) = {x} ∧ (deps_of (Gate.Tdg x)).card = 1 := by
  have hc2 : c2 ∉ ({u} : Finset Nat) := by simp [h3]
  have hc1 : c1 ∉ insert c2 ({u} : Finset Nat) := by simp [h1, h2]
  refine ⟨rfl, rfl, ?_, rfl, rfl, rfl, rfl, rfl, rfl, rfl, rfl, rfl, rfl⟩
  show (insert c1 (insert c2 ({u} : Finset Nat))).card = 3
  rw [Finset.card_insert_of_not_mem hc1, Finset.card_insert_of_not_mem hc2,
    Finset.card_singleton]

/-- Witness for C8 at `CNOT(0,1)`, `Toffoli(0,1,2)` and single-qubit target 5. -/
theorem C8_deps_of_sets_witness :
    deps_of (Gate.CNOT 0 1) = {0, 1} ∧
    deps_of (Gate.Tof 0 1 2) = {0, 1, 2} ∧
    (deps_of (Gate.Tof 0 1 2)).card = 3 ∧
    deps_of (Gate.X 5) = {5} ∧ (deps_of (Gate.X 5)).card = 1 ∧
    deps_of (Gate.HAD 5) = {5} ∧ (deps_of (Gate.HAD 5)).card = 1 ∧
    deps_of (Gate.S 5) = {5} ∧ (deps_of (Gate.S 5)).card = 1 ∧
    deps_of (Gate.T 5) = {5} ∧ (deps_of (Gate.T 5)).card = 1 ∧
    deps_of (Gate.Tdg 5) = {5} ∧ (deps_of (Gate.Tdg 5)).card = 1 :=
  C8_deps_of_sets 0 1 0 1 2 5 (by decide) (by decide) (by decide)

theorem request_qubits_fst (n : Nat) (qc : Circuit) :
    (request_qubits qc n).1 = { qc with n_qubits := qc.n_qubits + n } := by
  induction n generalizing qc with
  | zero => rfl
  | succ k ih =>
    simp only [request_qubits, request_qubit, ih]
    congr 1
    omega

theorem replay_gate_of_exported (g : Gate) (qc : Circuit)
    (h : tof_distinct g = true) :
    replay_gate qc (parse_gate_of_exported g) =
      ({ qc with gates := qc.gates ++ [g] }, none) := by
  cases g with
  | Tof a b c =>
    simp [parse_gate_of_exported, replay_gate, add_toffoli,
      show is_unique [a, b, c] = true from h]
  | CNOT a b => simp [parse_gate_of_exported, replay_gate, add_cnot]
  | X t => rfl
  | HAD t => rfl
  | S t => rfl
  | T t => rfl
  | Tdg t => rfl

theorem replay_gates_of_exported (gs : List Gate) (qc : Circuit)
    (h : ∀ g ∈ gs, tof_distinct g = true) :
    replay_gates qc (gs.map parse_gate_of_exported) =
      ({ qc with gates := qc.gates ++ gs }, none) := by
  induction gs generalizing qc with
  | nil => simp [replay_gates]
  | cons g gs ih =>
    have hg := h g (List.mem_cons_self g gs)
    have hrest : ∀ x ∈ gs, tof_distinct x = true :=
      fun x hx => h x (List.mem_cons_of_mem g hx)
    simp only [List.map_cons, replay_gates, replay_gate_of_exported g qc hg,
      ih _ hrest]
    simp

/-- C2: for every circuit (its `Toffoli` records carrying the §3
pairwise-distinct invariant), exporting without the optimizer yields exactly
`3 + N` lines for `N` gate records, and re-importing the exported text yields
a circuit with the same qubit count and the same gate records in the same
order, with no error raised. -/
theorem C2_export_import_roundtrip (qc : Circuit)
    (h : ∀ g ∈ qc.gates, tof_distinct g = true) :
    (to_qasm_lines qc).length = 3 + num_gates qc ∧
    from_qasm_of_exported qc = (qc, none) := by
  constructor
  · simp [to_qasm_lines, num_gates]
    omega
  · unfold from_qasm_of_exported from_parsed parse_exported
    rw [request_qubits_fst, replay_gates_of_exported qc.gates _ h]
    simp [Circuit.empty]

/-- Witness for C2 on a 3-qubit circuit containing all seven gate kinds. -/
theorem C2_export_import_roundtrip_witness :
    (∀ g ∈ (Circuit.mk 3 [Gate.Tof 0 1 2, Gate.CNOT 0 1, Gate.X 2,
        Gate.HAD 0, Gate.S 1, Gate.T 2, Gate.Tdg 0]).gates,
      tof_distinct g = true) ∧
    (to_qasm_lines (Circuit.mk 3 [Gate.Tof 0 1 2, Gate.CNOT 0 1, Gate.X 2,
        Gate.HAD 0, Gate.S 1, Gate.T 2, Gate.Tdg 0])).length =
      3 + num_gates (Circuit.mk 3 [Gate.Tof 0 1 2, Gate.CNOT 0 1, Gate.X 2,
        Gate.HAD 0, Gate.S 1, Gate.T 2, Gate.Tdg 0]) ∧
    from_qasm_of_exported (Circuit.mk 3 [Gate.Tof 0 1 2, Gate.CNOT 0 1,
        Gate.X 2, Gate.HAD 0, Gate.S 1, Gate.T 2, Gate.Tdg 0]) =
      (Circuit.mk 3 [Gate.Tof 0 1 2, Gate.CNOT 0 1, Gate.X 2,
        Gate.HAD 0, Gate.S 1, Gate.T 2, Gate.Tdg 0], none) :=
  ⟨by decide,
   C2_export_import_roundtrip
     (Circuit.mk 3 [Gate.Tof 0 1 2, Gate.CNOT 0 1, Gate.X 2,
       Gate.HAD 0, Gate.S 1, Gate.T 2, Gate.Tdg 0]) (by decide)⟩

/-- C5: export without the optimizer emits the 3-line header (version line,
include directive, register declaration sized to the qubit count) followed by
one line per gate record in order with the canonical mnemonics; building a
3-qubit circuit with one `add_toffoli(0, 1, 2)` call and exporting yields
exactly the four lines of the end-to-end example. -/
theorem C5_export_format (qc : Circuit) (n a b u c t x : Nat) (hn : qc.n_qubits = n) :
    to_qasm_lines qc =
      ["OPENQASM 2.0;", "include \"qelib1.inc\";", s!"qreg q[{n}];"]
        ++ qc.gates.map gate_line ∧
    gate_line (Gate.Tof a b u) = s!"ccx q[{a}], q[{b}], q[{u}];" ∧
    gate_line (Gate.CNOT c t) = s!"cx q[{c}], q[{t}];" ∧
    gate_line (Gate.X x) = s!"x q[{x}];" ∧
    gate_line (Gate.HAD x) = s!"h q[{x}];" ∧
    gate_line (Gate.S x) = s!"s q[{x}];" ∧
    gate_line (Gate.T x) = s!"t q[{x}];" ∧
    gate_line (Gate.Tdg x) = s!"tdg q[{x}];" ∧
    (add_toffoli (request_qubits Circuit.empty 3).1 0 1 2 false false false).2
      = none ∧
    to_qasm_lines
      (add_toffoli (request_qubits Circuit.empty 3).1 0 1 2 false false false).1
      = ["OPENQASM 2.0;", "include \"qelib1.inc\";", "qreg q[3];",
         "ccx q[0], q[1], q[2];"] := by
  subst hn
  exact ⟨rfl, rfl, rfl, rfl, rfl, rfl, rfl, rfl, by decide, by decide⟩

/-- Witness for C5 on a 2-qubit circuit holding one of each gate kind. -/
theorem C5_export_format_witness :
    to_qasm_lines (Circuit.mk 2 [Gate.Tof 0 1 2]) =
      ["OPENQASM 2.0;", "include \"qelib1.inc\";", "qreg q[2];"]
        ++ (Circuit.mk 2 [Gate.Tof 0 1 2]).gates.map gate_line ∧
    gate_line (Gate.Tof 0 1 2) = "ccx q[0], q[1], q[2];" ∧
    gate_line (Gate.CNOT 0 1) = "cx q[0], q[1];" ∧
    gate_line (Gate.X 5) = "x q[5];" ∧
    gate_line (Gate.HAD 5) = "h q[5];" ∧
    gate_line (Gate.S 5) = "s q[5];" ∧
    gate_line (Gate.T 5) = "t q[5];" ∧
    gate_line (Gate.Tdg 5) = "tdg q[5];" ∧
    (add_toffoli (request_qubits Circuit.empty 3).1 0 1 2 false false false).2
      = none ∧
    to_qasm_lines
      (add_toffoli (request_qubits Circuit.empty 3).1 0 1 2 false false false).1
      = ["OPENQASM 2.0;", "include \"qelib1.inc\";", "qreg q[3];",
         "ccx q[0], q[1], q[2];"] :=
  C5_export_format (Circuit.mk 2 [Gate.Tof 0 1 2]) 2 0 1 2 0 1 5 rfl

/-- C9: parsing `assign y = a | b;` with the De Morgan rewrite enabled yields
one AND-kind record with inputs `[a, b]`, output `y` and polarity
`p1 = p2 = p3 = true`; parsing `assign y = a & b;` yields an AND-kind record
with inputs `[a, b]`, output `y` and polarity `p1 = p2 = p3 = false`. -/
theorem C9_assignment_parsing :
    parse_assign_line "assign y = a | b;" true =
      some (LogicGate.mk "&" ["a", "b"] "y"
        [("p1", true), ("p2", true), ("p3", true)]) ∧
    parse_assign_line "assign y = a & b;" true =
      some (LogicGate.mk "&" ["a", "b"] "y"
        [("p1", false), ("p2", false), ("p3", false)]) := by
  constructor
  · decide
  · decide

/-- C10: evaluation of the code at the claim's input.  Two records built
without explicit data — as `from_assignment`'s copy-gate branch builds them —
both reference the single default dict created when `__init__` was defined,
so inserting a key through the first record's data makes it appear in the
second record's data: the default *is* one object shared across
constructions, contradicting the claim. -/
theorem C10_default_data_is_shared :
    (mkLogicGate initialHeap "=" ["a"] "y" none).2.dataRef =
      (mkLogicGate (mkLogicGate initialHeap "=" ["a"] "y" none).1
        "=" ["b"] "z" none).2.dataRef ∧
    dictMem
      (mkLogicGate (mkLogicGate initialHeap "=" ["a"] "y" none).1
        "=" ["b"] "z" none).1
      (mkLogicGate (mkLogicGate initialHeap "=" ["a"] "y" none).1
        "=" ["b"] "z" none).2.dataRef "k" = false ∧
    dictMem
      (dictInsert
        (mkLogicGate (mkLogicGate initialHeap "=" ["a"] "y" none).1
          "=" ["b"] "z" none).1
        (mkLogicGate initialHeap "=" ["a"] "y" none).2.dataRef "k" true)
      (mkLogicGate (mkLogicGate initialHeap "=" ["a"] "y" none).1
        "=" ["b"] "z" none).2.dataRef "k" = true := by
  refine ⟨rfl, ?_, ?_⟩
  · decide
  · decide
